import Mathlib

/-!
Shallow embedding of `delegates::delegate<R(Args...)>` from `src/delegates.h`.

The C++ class stores `std::vector<std::function<R(Args...)>> callbacks_`.
Side effects of the bound callables are modelled by explicit state passing:
a callable takes the argument pack `a : α` and a state `s : σ` and returns
the updated state paired with its result of type `ρ`.

A stored `std::function` value is modelled by `StdFunction`: it carries
`tag`, a natural number standing for the runtime type `target_type()` of the
wrapped callable (two callables get equal tags exactly when their C++ types
are equal; the empty function reports `typeid(void)`, encoded as tag `0`),
and an optional function: `fn = none` models the empty `std::function`, the
state a `std::function` is in after construction from a null function
pointer; invoking an empty `std::function` throws `std::bad_function_call`.

Exceptions are modelled with `Except`: a thrown exception propagates
immediately, and a member function that can throw returns the resulting
state of `*this` paired with the exception, if any, so that the "nothing
was mutated before the throw" behaviour of the source is visible.
-/

namespace Delegates

/-- The exceptions the source can throw: `std::invalid_argument` from
`bind(T*, method)` on a null object, `std::runtime_error` from `operator()`
on an empty non-void delegate, and `std::bad_function_call` from invoking an
empty `std::function`. -/
inductive CppError where
  | invalidArgument
  | runtimeError
  | badFunctionCall
deriving DecidableEq

/-- One stored `function_type` value (`std::function<R(Args...)>`). -/
structure StdFunction (σ α ρ : Type) where
  tag : Nat
  fn : Option (α → σ → σ × ρ)

/-- Invoking a stored `std::function`: the empty function throws
`std::bad_function_call`, otherwise the wrapped callable runs. -/
def StdFunction.call (f : StdFunction σ α ρ) (a : α) (s : σ) :
    Except CppError (σ × ρ) :=
  match f.fn with
  | none => .error .badFunctionCall
  | some g => .ok (g a s)

/-- A callable value that can be passed to `bind(F&& func)` / `operator+=`:
a free-function pointer (possibly null) or a closure/functor/lambda.
`tag` is `typeid` of the C++ type of the value. -/
inductive Callable (σ α ρ : Type) where
  | fnPtr (tag : Nat) (p : Option (α → σ → σ × ρ))
  | closure (tag : Nat) (f : α → σ → σ × ρ)

/-- The implicit conversion to `function_type` performed by
`callbacks_.emplace_back(std::forward<F>(func))`: a null function pointer
yields the empty `std::function`, whose `target_type()` is `typeid(void)`
(tag `0`); everything else is wrapped with its own type as target type. -/
def toStdFunction : Callable σ α ρ → StdFunction σ α ρ
  | .fnPtr _ none => ⟨0, none⟩
  | .fnPtr t (some g) => ⟨t, some g⟩
  | .closure t g => ⟨t, some g⟩

/-- `delegates::delegate<R(Args...)>`: the vector of stored callbacks. -/
structure delegate (σ α ρ : Type) where
  callbacks_ : List (StdFunction σ α ρ)

namespace delegate

/-- `template<typename F> void bind(F&& func)`:
`callbacks_.emplace_back(std::forward<F>(func));` — appends, no checks. -/
def bind (d : delegate σ α ρ) (c : Callable σ α ρ) : delegate σ α ρ :=
  ⟨d.callbacks_ ++ [toStdFunction c]⟩

/-- `template<typename T> void bind(T* object, R (T::*method)(Args...))`
(and the `const` overload, identical up to `const`): a null `object` throws
`std::invalid_argument` before anything is appended, so `*this` is left
untouched; otherwise the capturing lambda
`[object, method](Args... args) -> R { return (object->*method)(args...); }`
is appended.  The result is the new state of `*this` paired with the thrown
exception, if any.  `tag` stands for the type of the capturing lambda. -/
def bindMember (d : delegate σ α ρ) (object : Option T)
    (method : T → α → σ → σ × ρ) (tag : Nat) :
    delegate σ α ρ × Option CppError :=
  match object with
  | none => (d, some .invalidArgument)
  | some obj => (⟨d.callbacks_ ++ [⟨tag, some fun a s => method obj a s⟩]⟩, none)

/-- `operator+=` forwards to `bind` and returns `*this`. -/
def opAdd (d : delegate σ α ρ) (c : Callable σ α ρ) : delegate σ α ρ :=
  d.bind c

/-- The `std::find_if` + `erase` in `operator-=`: drop the first stored
entry whose `target_type()` equals `t`; keep everything if none matches. -/
def eraseFirstTag : List (StdFunction σ α ρ) → Nat → List (StdFunction σ α ρ)
  | [], _ => []
  | f :: rest, t => if f.tag = t then rest else f :: eraseFirstTag rest t

/-- `template<typename F> delegate& operator-=(const F& func)`: erase the
first stored entry with `stored.target_type() == typeid(F)`; `t` is
`typeid(F)`.  Only the type of the argument matters, never its value. -/
def opSub (d : delegate σ α ρ) (t : Nat) : delegate σ α ρ :=
  ⟨eraseFirstTag d.callbacks_ t⟩

/-- Sequential invocation of a list of stored callbacks with one argument
pack, threading the state and discarding each result; an exception thrown
by an entry propagates at once (entries after it do not run). -/
def runseq : List (StdFunction σ α ρ) → α → σ → Except CppError σ
  | [], _, s => .ok s
  | f :: rest, a, s =>
    match f.call a s with
    | .error e => .error e
    | .ok (s', _) => runseq rest a s'

/-- `R operator()(CallArgs&&... args) const` instantiated at a non-void
return type `R`: an empty delegate throws
`std::runtime_error("No callbacks bound to delegate")`; otherwise the loop
`for (i = 0; i < callbacks_.size() - 1; ++i) callbacks_[i](args...)` runs
every entry before the last, discarding results, and then
`return callbacks_.back()(args...)` produces the overall result.
The `callbacks_.empty()` guard and the final `callbacks_.back()` are fused
into one match on `getLast?`, which is `none` exactly on the empty vector. -/
def callOp (d : delegate σ α ρ) (a : α) (s : σ) : Except CppError (σ × ρ) :=
  match d.callbacks_.getLast? with
  | none => .error .runtimeError
  | some lastF =>
    match runseq d.callbacks_.dropLast a s with
    | .error e => .error e
    | .ok s1 => lastF.call a s1

/-- `operator()` instantiated at `R = void`: an empty delegate returns at
once (silent no-op); otherwise the range-for runs every entry in order,
discarding results. -/
def callOpVoid (d : delegate σ α ρ) (a : α) (s : σ) : Except CppError σ :=
  if d.callbacks_.isEmpty then .ok s
  else runseq d.callbacks_ a s

/-- `size_t size() const noexcept { return callbacks_.size(); }` -/
def size (d : delegate σ α ρ) : Nat :=
  d.callbacks_.length

/-- `void clear() noexcept { callbacks_.clear(); }` -/
def clear (_d : delegate σ α ρ) : delegate σ α ρ :=
  ⟨[]⟩

/-- `bool empty() const noexcept { return callbacks_.empty(); }` -/
def empty (d : delegate σ α ρ) : Bool :=
  d.callbacks_.isEmpty

/-- `explicit operator bool() const noexcept { return !callbacks_.empty(); }` -/
def toBool (d : delegate σ α ρ) : Bool :=
  !d.callbacks_.isEmpty

/-- `delegate(const delegate& other) : callbacks_(other.callbacks_) {}` -/
def copyConstruct (other : delegate σ α ρ) : delegate σ α ρ :=
  ⟨other.callbacks_⟩

/-- `delegate(delegate&& other) noexcept : callbacks_(std::move(other.callbacks_)) {}`
Moving a `std::vector` steals its buffer and leaves the source vector
empty.  The result is the pair (the new object, the moved-from source). -/
def moveConstruct (other : delegate σ α ρ) : delegate σ α ρ × delegate σ α ρ :=
  (⟨other.callbacks_⟩, ⟨[]⟩)

/-- `delegate& operator=(const delegate& other)`.  The flag `same` models
the pointer-identity test `this == &other`: when it holds (so `other` IS
`*this`), the guard skips the copy and `*this` keeps its value. -/
def copyAssign (thisD other : delegate σ α ρ) (same : Bool) : delegate σ α ρ :=
  if same then thisD else ⟨other.callbacks_⟩

/-- `delegate& operator=(delegate&& other) noexcept`, result is the pair
(new `*this`, new state of `other`).  `same` models `this == &other`; when
the objects are distinct the vector move-assignment transfers the entries
and leaves `other` empty. -/
def moveAssign (thisD other : delegate σ α ρ) (same : Bool) :
    delegate σ α ρ × delegate σ α ρ :=
  if same then (thisD, other) else (⟨other.callbacks_⟩, ⟨[]⟩)

/-- Repeated `bind` of a list of callables, left to right. -/
def bindAll (d : delegate σ α ρ) (cs : List (Callable σ α ρ)) : delegate σ α ρ :=
  cs.foldl bind d

/-- An instrumented closure: when invoked it appends its registration index
`i` to the trace state (recording the call) and computes `f` on the
argument.  The tag `i + 1` keeps the tags of distinct positions distinct. -/
def instrOne (i : Nat) (f : α → ρ) : Callable (List Nat) α ρ :=
  .closure (i + 1) fun a s => (s ++ [i], f a)

/-- Instrumented callables for a list of result functions, positions
numbered from `i`. -/
def instrC (i : Nat) : List (α → ρ) → List (Callable (List Nat) α ρ)
  | [] => []
  | f :: fs => instrOne i f :: instrC (i + 1) fs

/-- The delegate obtained by binding, in order, one instrumented callable
per element of `fs`, starting from the default-constructed delegate. -/
def mkInstr (fs : List (α → ρ)) : delegate (List Nat) α ρ :=
  bindAll ⟨[]⟩ (instrC 0 fs)

/-- Every entry of the vector wraps an actual callable (no empty
`std::function` stored). -/
def noNullEntries (d : delegate σ α ρ) : Bool :=
  d.callbacks_.all fun f => f.fn.isSome

theorem bindAll_callbacks (cs : List (Callable σ α ρ)) :
    ∀ d : delegate σ α ρ,
      (bindAll d cs).callbacks_ = d.callbacks_ ++ cs.map toStdFunction := by
  induction cs with
  | nil => intro d; simp [bindAll]
  | cons c cs ih =>
    intro d
    show (bindAll (d.bind c) cs).callbacks_ = _
    rw [ih]
    simp [bind]

theorem runseq_instrC (fs : List (α → ρ)) :
    ∀ (i : Nat) (a : α) (s : List Nat),
      runseq ((instrC i fs).map toStdFunction) a s
        = .ok (s ++ List.range' i fs.length) := by
  induction fs with
  | nil => intro i a s; simp [instrC, runseq]
  | cons f fs ih =>
    intro i a s
    simp only [instrC, instrOne, List.map_cons, toStdFunction, runseq,
      StdFunction.call, ih (i + 1), List.length_cons, List.range'_succ]
    simp

theorem instrC_append (fs : List (α → ρ)) (g : α → ρ) :
    ∀ i, instrC i (fs ++ [g]) = instrC i fs ++ [instrOne (i + fs.length) g] := by
  induction fs with
  | nil => intro i; simp [instrC]
  | cons f fs ih =>
    intro i
    show instrOne i f :: instrC (i + 1) (fs ++ [g]) = _
    rw [ih (i + 1)]
    simp only [instrC, List.cons_append, List.length_cons]
    have h : i + 1 + fs.length = i + (fs.length + 1) := by omega
    rw [h]

theorem callOp_concat (l : List (StdFunction σ α ρ)) (x : StdFunction σ α ρ)
    (a : α) (s : σ) :
    callOp ⟨l ++ [x]⟩ a s =
      match runseq l a s with
      | .error e => .error e
      | .ok s1 => x.call a s1 := by
  simp only [callOp, List.getLast?_concat, List.dropLast_concat]

/-- C1: for a non-void delegate holding `N ≥ 1` entries (here: instrumented
callables recording their registration index in the trace), one invocation
calls the entries at positions `0 .. N-2` in registration order with results
discarded, then calls the entry at position `N-1` and returns its result as
the overall result.  The final trace `List.range N` records every entry
invoked exactly once, in order; the returned value is the last entry's
result.  For `N = 1` the trace is `[0]`: only the single entry ran. -/
theorem nonvoid_invocation_concat (gs : List (α → ρ)) (g : α → ρ) (a : α) :
    callOp (mkInstr (gs ++ [g])) a []
      = .ok (List.range (gs.length + 1), g a) := by
  have hd : mkInstr (gs ++ [g])
      = (⟨(instrC 0 gs).map toStdFunction
          ++ [toStdFunction (instrOne gs.length g)]⟩ : delegate (List Nat) α ρ) := by
    have hcb : (mkInstr (gs ++ [g])).callbacks_
        = (instrC 0 gs).map toStdFunction
          ++ [toStdFunction (instrOne gs.length g)] := by
      simp [mkInstr, bindAll_callbacks, instrC_append]
    rw [← hcb]
  rw [hd, callOp_concat, runseq_instrC]
  rw [List.range_succ]
  simp [toStdFunction, instrOne, StdFunction.call, List.range_eq_range']

/-- C1: for a non-void delegate holding `N ≥ 1` entries (here: instrumented
callables recording their registration index in the trace), one invocation
calls the entries at positions `0 .. N-2` in registration order with results
discarded, then calls the entry at position `N-1` and returns its result as
the overall result.  The final trace `List.range N` records every entry
invoked exactly once, in order; the returned value is the last entry's
result.  For `N = 1` the trace is `[0]`: only the single entry ran. -/
theorem nonvoid_invocation (fs : List (α → ρ)) (h : fs ≠ []) (a : α) :
    callOp (mkInstr fs) a [] = .ok (List.range fs.length, fs.getLast h a) := by
  rcases List.eq_nil_or_concat fs with rfl | ⟨gs, g, hfs⟩
  · exact absurd rfl h
  · subst hfs
    have h1 : (gs.concat g).getLast h = g := by simp
    rw [h1, List.concat_eq_append, nonvoid_invocation_concat]
    simp

theorem nonvoid_invocation_witness :
    callOp (mkInstr [fun a : Nat => a + 1, fun a => a * 2]) 5 []
      = .ok ([0, 1], 10) := by
  rw [nonvoid_invocation [fun a : Nat => a + 1, fun a => a * 2]
    (by simp) 5]
  rfl

/-- C2: for a void-returning delegate holding any number `N ≥ 0` of entries
(here: instrumented callables recording their registration index in the
trace), a single invocation calls every bound callable exactly once, in
bind order — the final trace is `List.range N` — and the invocation never
fails (`.ok`), including `N = 0`, where it is a silent no-op leaving the
trace empty. -/
theorem void_invocation (fs : List (α → ρ)) (a : α) :
    callOpVoid (mkInstr fs) a [] = .ok (List.range fs.length) := by
  have hcb : (mkInstr fs).callbacks_ = (instrC 0 fs).map toStdFunction := by
    simp [mkInstr, bindAll_callbacks]
  cases fs with
  | nil =>
    simp [callOpVoid, hcb, instrC]
  | cons f fs =>
    rw [callOpVoid, hcb]
    rw [if_neg (by simp [instrC])]
    rw [runseq_instrC]
    simp [List.range_eq_range']

/-- C3: invoking a non-void delegate with zero bound entries fails with the
`std::runtime_error` ("No callbacks bound to delegate"), for every argument
and every state — the same error on each call, deterministically — rather
than returning a default value. -/
theorem unbound_nonvoid_invocation (d : delegate σ α ρ) (a : α) (s : σ)
    (h : d.callbacks_ = []) : callOp d a s = .error .runtimeError := by
  rw [callOp, h]
  rfl

theorem unbound_nonvoid_invocation_witness :
    callOp (⟨[]⟩ : delegate Nat Nat Nat) 0 0 = .error .runtimeError :=
  unbound_nonvoid_invocation ⟨[]⟩ 0 0 rfl

/-- C4: calling `bind(objectRef, memberFunction)` with a null object
reference fails with `std::invalid_argument` at bind time (the error is in
the result of `bindMember` itself, before any invocation), and the entry
sequence is left unchanged: the resulting delegate is the original one, so
`size()` is the same before and after and nothing was appended. -/
theorem bind_null_object (d : delegate σ α ρ) (method : T → α → σ → σ × ρ)
    (tag : Nat) :
    bindMember d (none : Option T) method tag = (d, some .invalidArgument) ∧
    size (bindMember d (none : Option T) method tag).1 = size d :=
  ⟨rfl, rfl⟩

theorem eraseFirstTag_no_match (t : Nat) :
    ∀ l : List (StdFunction σ α ρ),
      (∀ f ∈ l, f.tag ≠ t) → eraseFirstTag l t = l := by
  intro l
  induction l with
  | nil => intro _; rfl
  | cons f rest ih =>
    intro hl
    rw [eraseFirstTag, if_neg (hl f (List.mem_cons_self f rest)), ih]
    intro g hg
    exact hl g (List.mem_cons_of_mem f hg)

theorem eraseFirstTag_first_match (t : Nat) (f : StdFunction σ α ρ)
    (l₂ : List (StdFunction σ α ρ)) (hf : f.tag = t) :
    ∀ l₁ : List (StdFunction σ α ρ), (∀ g ∈ l₁, g.tag ≠ t) →
      eraseFirstTag (l₁ ++ f :: l₂) t = l₁ ++ l₂ := by
  intro l₁
  induction l₁ with
  | nil => intro _; simp [eraseFirstTag, if_pos hf]
  | cons g rest ih =>
    intro hl
    rw [List.cons_append, eraseFirstTag,
      if_neg (hl g (List.mem_cons_self g rest)), ih, List.cons_append]
    intro x hx
    exact hl x (List.mem_cons_of_mem g hx)

/-- C5: `operator-=` removes the first stored entry (in registration order)
whose underlying callable type — its `target_type()`, the tag — matches the
type of the argument, removing at most one entry (it is matching by type
only, so the captured state of the entry never enters the search); when no
stored entry's type matches, the operation is a no-op leaving the sequence
unchanged, and it never fails (it is total). -/
theorem opSub_first_match (d : delegate σ α ρ) (t : Nat) :
    ((∀ f ∈ d.callbacks_, f.tag ≠ t) → opSub d t = d) ∧
    (∀ l₁ (f : StdFunction σ α ρ) l₂, d.callbacks_ = l₁ ++ f :: l₂ →
      (∀ g ∈ l₁, g.tag ≠ t) → f.tag = t →
      (opSub d t).callbacks_ = l₁ ++ l₂) := by
  constructor
  · intro hall
    rw [opSub, eraseFirstTag_no_match t d.callbacks_ hall]
  · intro l₁ f l₂ hd hl₁ hf
    rw [opSub, hd, eraseFirstTag_first_match t f l₂ hf l₁ hl₁]

/-- A sample stored entry with a given tag, used to exercise removal. -/
def exEntry (t : Nat) : StdFunction Nat Nat Nat :=
  ⟨t, some fun a s => (s, a)⟩

theorem opSub_first_match_witness :
    (opSub (⟨[exEntry 1, exEntry 2, exEntry 2]⟩ : delegate Nat Nat Nat)
        2).callbacks_ = [exEntry 1, exEntry 2] ∧
    opSub (⟨[exEntry 1, exEntry 3]⟩ : delegate Nat Nat Nat) 2
      = ⟨[exEntry 1, exEntry 3]⟩ := by
  constructor
  · exact (opSub_first_match ⟨[exEntry 1, exEntry 2, exEntry 2]⟩ 2).2
      [exEntry 1] (exEntry 2) [exEntry 2] rfl
      (by intro g hg; simp only [List.mem_singleton] at hg; subst hg; decide)
      rfl
  · exact (opSub_first_match ⟨[exEntry 1, exEntry 3]⟩ 2).1
      (by intro g hg
          simp only [List.mem_cons, List.mem_singleton] at hg
          rcases hg with rfl | rfl | h
          · decide
          · decide
          · exact absurd h (List.not_mem_nil g))

/-- C6 counterexample: the single-argument `bind(F&& func)` performs no
validity check, so binding a bare null function pointer stores the empty
`std::function` — a null, non-invocable entry — in the sequence, and a
later invocation throws `std::bad_function_call`.  This contradicts the
claim that no bind path can ever place a null or non-invocable entry. -/
theorem bare_null_bind_counterexample :
    (bind (⟨[]⟩ : delegate Nat Nat Nat) (.fnPtr 1 none)).callbacks_
        = [⟨0, none⟩] ∧
    noNullEntries (bind (⟨[]⟩ : delegate Nat Nat Nat) (.fnPtr 1 none)) = false ∧
    callOp (bind (⟨[]⟩ : delegate Nat Nat Nat) (.fnPtr 1 none)) 0 0
        = .error .badFunctionCall :=
  ⟨rfl, rfl, rfl⟩

/-- C6 amended: entries are never null once stored, for every bind path
that validates or receives an actual callable: the member-function bind
paths (which reject a null object at bind time, appending nothing), bind of
a closure, and bind of a non-null function pointer all preserve the
invariant that every stored entry wraps a callable.  The single-argument
bind of a bare null function pointer is excluded: it stores an empty,
non-invocable `std::function` (see the counterexample). -/
theorem no_null_entries_checked_paths (d : delegate σ α ρ)
    (hInv : noNullEntries d = true) :
    (∀ (T : Type) (obj : Option T) (m : T → α → σ → σ × ρ) (tag : Nat),
        noNullEntries (bindMember d obj m tag).1 = true) ∧
    (∀ (tag : Nat) (g : α → σ → σ × ρ),
        noNullEntries (bind d (.closure tag g)) = true) ∧
    (∀ (tag : Nat) (p : α → σ → σ × ρ),
        noNullEntries (bind d (.fnPtr tag (some p))) = true) := by
  refine ⟨fun T obj m tag => ?_, fun tag g => ?_, fun tag p => ?_⟩
  · cases obj with
    | none => exact hInv
    | some o => simp_all [noNullEntries, bindMember]
  · simp_all [noNullEntries, bind, toStdFunction]
  · simp_all [noNullEntries, bind, toStdFunction]

theorem no_null_entries_checked_paths_witness :
    noNullEntries (bindMember (⟨[]⟩ : delegate Nat Nat Nat) (some 7)
      (fun o a s => (s + o, a)) 3).1 = true :=
  (no_null_entries_checked_paths ⟨[]⟩ rfl).1 Nat (some 7)
    (fun o a s => (s + o, a)) 3

/-- C7: after `clear()` the delegate is empty — `empty()` reports true and
`size()` reports 0 — regardless of prior content; `clear()` is total (it is
`noexcept` in the source and a plain function here), so it never fails. -/
theorem clear_resets (d : delegate σ α ρ) :
    empty (clear d) = true ∧ size (clear d) = 0 :=
  ⟨rfl, rfl⟩

/-- C8: copying a delegate (copy construction, or copy assignment between
distinct objects) yields an instance with the same number of entries whose
invocation — void or non-void — produces exactly the same result and the
same side effects (the same final state) as invoking the original, on every
argument and every starting state. -/
theorem copy_preserves_behaviour (d dst : delegate σ α ρ) (a : α) (s : σ) :
    size (copyConstruct d) = size d ∧
    callOp (copyConstruct d) a s = callOp d a s ∧
    callOpVoid (copyConstruct d) a s = callOpVoid d a s ∧
    size (copyAssign dst d false) = size d ∧
    callOp (copyAssign dst d false) a s = callOp d a s ∧
    callOpVoid (copyAssign dst d false) a s = callOpVoid d a s :=
  ⟨rfl, rfl, rfl, rfl, rfl, rfl⟩

/-- C9: moving from a delegate holding `k` entries (move construction, or
move assignment into a distinct delegate) transfers the whole entry list —
all `k` entries, in their original order — to the destination and leaves
the source with 0 entries. -/
theorem move_transfers_and_empties (d dst : delegate σ α ρ) :
    (moveConstruct d).1.callbacks_ = d.callbacks_ ∧
    size (moveConstruct d).2 = 0 ∧
    (moveAssign dst d false).1.callbacks_ = d.callbacks_ ∧
    size (moveAssign dst d false).2 = 0 :=
  ⟨rfl, rfl, rfl, rfl⟩

/-- C10: self-assignment (copy or move assignment where source and
destination are the same object, i.e. the `this == &other` guard fires)
leaves the delegate unchanged: the same entries, in the same order, with
the same size. -/
theorem self_assignment_noop (d : delegate σ α ρ) :
    copyAssign d d true = d ∧ moveAssign d d true = (d, d) ∧
    size (copyAssign d d true) = size d :=
  ⟨rfl, rfl, rfl⟩

end delegate

end Delegates
